import Mathlib

/-!
Verification of the SARIF upload-and-report pipeline.

This file gives a shallow embedding of the pipeline implemented in
`src/upload-lib.ts` and `lib/util.js`: merging SARIF files, schema
validation, the retrying upload client, and the status reporter with its
cached identity fields.  The process environment (`process.env` plus
`core.exportVariable`) is modelled as an explicit string-keyed store that
each operation threads through; external collaborators (the git commit
lookup, the workflow-metadata API, the JSON-schema validator, gzip,
fingerprinting and serialization) are passed in as parameters.
-/

namespace Sarif

/-- The process environment: a map from variable name to value, where
`none` models an unset variable (`undefined` in the source). -/
abbrev Env := String → Option String

/-- `core.exportVariable k v`: set key `k` to `v`, keeping all other keys. -/
def envSet (env : Env) (k v : String) : Env :=
  fun k' => if k' = k then some v else env k'

/-- JavaScript truthiness of an environment read: `undefined` and the
empty string are falsy, every other string is truthy. -/
def truthy : Option String → Bool
  | none => false
  | some s => s ≠ ""

/-- `getRequiredEnvParam` from `lib/util.js`: return the value of the
variable, or throw if it is unset or empty. -/
def getRequiredEnvParam (env : Env) (name : String) : Except String String :=
  match env name with
  | none => .error (name ++ " environment variable must be set")
  | some v =>
      if v = "" then .error (name ++ " environment variable must be set")
      else .ok v

/-- Name of the cached analysis key in the environment store
(`sharedEnv.CODEQL_ACTION_ANALYSIS_KEY`). -/
def ANALYSIS_KEY_VAR : String := "CODEQL_ACTION_ANALYSIS_KEY"

/-- Name of the cached workflow start time in the environment store
(`sharedEnv.CODEQL_WORKFLOW_STARTED_AT`). -/
def WORKFLOW_STARTED_AT_VAR : String := "CODEQL_WORKFLOW_STARTED_AT"

/-- Name of the upload sentinel flag (`sentinelEnvVar` in
`uploadFiles`). -/
def SENTINEL_VAR : String := "CODEQL_UPLOAD_SARIF"

/-- Decimal digit test used by the regex and `parseInt` models. -/
def isDigitChar (c : Char) : Bool := '0' ≤ c && c ≤ '9'

/-- Value of a nonempty all-digit character list, most significant first. -/
def digitsVal (ds : List Char) : Nat :=
  ds.foldl (fun a c => a * 10 + (c.toNat - 48)) 0

/-- Model of JavaScript `parseInt(s, 10)`: an optional minus sign followed
by a longest run of leading decimal digits; `none` stands for `NaN`
(no leading digits).  Leading whitespace and a leading plus sign are not
modelled; the callers in this development never pass them. -/
def jsParseInt (s : String) : Option Int :=
  match s.data with
  | '-' :: rest =>
      let ds := rest.takeWhile isDigitChar
      if ds = [] then none else some (-(digitsVal ds : Int))
  | cs =>
      let ds := cs.takeWhile isDigitChar
      if ds = [] then none else some ((digitsVal ds : Int))

/-- Try to match the regex `refs\/pull\/(\d+)\/merge` at the head of `cs`:
the literal `refs/pull/`, then one or more digits (the greedy `\d+`, which
is forced maximal because a digit cannot also match the following `/`),
then the literal `/merge`.  On success, return the digit group and the
characters after the match. -/
def matchPullMergeAt (cs : List Char) : Option (List Char × List Char) :=
  if cs.take 10 = "refs/pull/".data then
    let tl := cs.drop 10
    let ds := tl.takeWhile isDigitChar
    let rest := tl.dropWhile isDigitChar
    if ds ≠ [] ∧ rest.take 6 = "/merge".data then some (ds, rest.drop 6)
    else none
  else none

/-- Replace the leftmost match of `refs\/pull\/(\d+)\/merge` in `cs` with
`refs/pull/$1/head`, or return `none` when there is no match anywhere
(the unanchored `RegExp.test` of the source is false). -/
def replacePullMerge : List Char → Option (List Char)
  | [] => none
  | c :: rest =>
      match matchPullMergeAt (c :: rest) with
      | some (ds, after) =>
          some ("refs/pull/".data ++ ds ++ "/head".data ++ after)
      | none => (replacePullMerge rest).map (c :: ·)

/-- The pure rewriting step of `getRef` from `lib/util.js`: if the
unanchored regex `refs\/pull\/(\d+)\/merge` matches anywhere in the ref,
replace the first match with `refs/pull/$1/head`; otherwise return the
ref unchanged. -/
def getRefRewrite (ref : String) : String :=
  match replacePullMerge ref.data with
  | some l => ⟨l⟩
  | none => ref

/-- `getRef` from `lib/util.js`: read the required `GITHUB_REF` variable
and apply the pull-request merge-ref rewrite. -/
def getRef (env : Env) : Except String String :=
  (getRequiredEnvParam env "GITHUB_REF").map getRefRewrite

/-- One SARIF run.  Only the fields this subsystem reads are modelled:
`driverName` is `run.tool.driver.name` when that chain of fields exists
and holds a string (`none` otherwise), and `resultCount` is the length of
`run.results`. -/
structure SarifRun where
  driverName : Option String
  resultCount : Nat
  deriving DecidableEq, Repr

/-- The parsed contents of one input SARIF file: the declared `version`
string and the ordered `runs` sequence. -/
structure SarifFile where
  version : String
  runs : List SarifRun
  deriving DecidableEq, Repr

/-- The merged document built by `combineSarifFiles`: `version` starts as
`null` (`none`) and is set from the first file. -/
structure CombinedSarif where
  version : Option String
  runs : List SarifRun
  deriving DecidableEq, Repr

/-- The loop body of `combineSarifFiles`: fold the files into the
accumulator, checking each file's version against the accumulated one
(set from the first file) and appending its runs. -/
def combineSarifLoop : List SarifFile → CombinedSarif → Except String CombinedSarif
  | [], acc => .ok acc
  | f :: rest, acc =>
      match acc.version with
      | none => combineSarifLoop rest ⟨some f.version, acc.runs ++ f.runs⟩
      | some v =>
          if f.version = v then combineSarifLoop rest ⟨some v, acc.runs ++ f.runs⟩
          else .error ("Different SARIF versions encountered: " ++ v ++ " and " ++ f.version)

/-- `combineSarifFiles` from `src/upload-lib.ts`, over the parsed contents
of the input files (file reading and JSON parsing are external). -/
def combineSarifFiles (files : List SarifFile) : Except String CombinedSarif :=
  combineSarifLoop files ⟨none, []⟩

/-- `countResultsInSarif` from `src/upload-lib.ts`: the total number of
results over all runs of the document. -/
def countResultsInSarif (runs : List SarifRun) : Nat :=
  runs.foldl (fun acc r => acc + r.resultCount) 0

/-- A canonical decimal numeral: nonempty, all digits, and no leading
zero (except the numeral `0` itself).  Returns the value it denotes. -/
def canonicalNatStr (s : String) : Option Nat :=
  if s.data ≠ [] ∧ s.data.all isDigitChar ∧ (s.data.head? = some '0' → s.data = ['0'])
  then some (digitsVal s.data) else none

/-- Whether a JavaScript property key is an array index (ECMAScript: a
canonical numeric string whose value is below `2^32 - 1`).  `Object.keys`
lists such keys first, in ascending numeric order, before the remaining
string keys in insertion order. -/
def isArrayIndex (s : String) : Bool :=
  match canonicalNatStr s with
  | some n => n < 4294967295
  | none => false

/-- Numeric value used to sort array-index keys. -/
def keyNumVal (s : String) : Nat := (canonicalNatStr s).getD 0

/-- `obj[k] = true` on a plain JavaScript object used as a set: a new key
is appended to the insertion order, an existing key keeps its place. -/
def insertKey (acc : List String) (k : String) : List String :=
  if k ∈ acc then acc else acc ++ [k]

/-- `Object.keys` of a plain object built by the given sequence of key
insertions: array-index keys first in ascending numeric order, then the
remaining keys in insertion order. -/
def jsObjectKeys (names : List String) : List String :=
  let keys := names.foldl insertKey []
  List.insertionSort (fun a b => keyNumVal a ≤ keyNumVal b) (keys.filter isArrayIndex)
    ++ keys.filter (fun s => !isArrayIndex s)

/-- The driver names the `getToolNames` loop actually registers: for each
run in order, `run.tool.driver.name` when it is a string of positive
length. -/
def validDriverNames (runs : List SarifRun) : List String :=
  runs.filterMap fun r =>
    match r.driverName with
    | some n => if n = "" then none else some n
    | none => none

/-- `getToolNames` from `lib/util.js`: register each valid driver name as
a key of a plain object, then take `Object.keys`. -/
def getToolNames (runs : List SarifRun) : List String :=
  jsObjectKeys (validDriverNames runs)

/-- The tool-name list described by the specification: the valid driver
names with duplicates removed, keeping each name at its first
appearance. -/
def dedupFirst : List String → List String
  | [] => []
  | n :: rest => n :: (dedupFirst rest).filter (fun m => decide (m ≠ n))

/-- `getWorkflowPath` from `lib/util.js`: require `GITHUB_REPOSITORY` and
`GITHUB_RUN_ID`, then ask the external workflow-metadata collaborator for
the workflow's declared path.  The collaborator's answer is the
`workflowPath` parameter; the returned counter records that one external
workflow-metadata lookup was performed. -/
def getWorkflowPath (workflowPath : String) (env : Env) : Except String (String × Nat) :=
  match getRequiredEnvParam env "GITHUB_REPOSITORY" with
  | .error e => .error e
  | .ok _ =>
      match getRequiredEnvParam env "GITHUB_RUN_ID" with
      | .error e => .error e
      | .ok _ => .ok (workflowPath, 1)

/-- `getAnalysisKey` from `lib/util.js`: return the cached analysis key
from the environment store when present; otherwise derive it from the
workflow path and `GITHUB_JOB`, cache it, and return it.  The result also
carries the updated store and the number of external workflow-metadata
lookups performed (0 on a cache hit, 1 otherwise). -/
def getAnalysisKey (workflowPath : String) (env : Env) :
    Except String (String × Env × Nat) :=
  match env ANALYSIS_KEY_VAR with
  | some k => .ok (k, env, 0)
  | none =>
      match getWorkflowPath workflowPath env with
      | .error e => .error e
      | .ok (wp, n) =>
          match getRequiredEnvParam env "GITHUB_JOB" with
          | .error e => .error e
          | .ok jobName =>
              let key := wp ++ ":" ++ jobName
              .ok (key, envSet env ANALYSIS_KEY_VAR key, n)

/-- A status report, as assembled by `createStatusReportBase`.
`workflow_run_id` is `none` when `parseInt` produced `NaN`.  Optional
fields are `none` when the source leaves them unset. -/
structure StatusReport where
  workflow_run_id : Option Int
  workflow_name : String
  job_name : String
  analysis_key : String
  commit_oid : String
  ref : String
  action_name : String
  action_oid : String
  started_at : String
  action_started_at : String
  status : String
  cause : Option String
  exception : Option String
  completed_at : Option String
  matrix_vars : Option String
  deriving DecidableEq, Repr

/-- Keep an optional string only when it is present and truthy, as the
`if (cause) statusReport.cause = cause` pattern does. -/
def keepTruthy : Option String → Option String
  | some c => if c = "" then none else some c
  | none => none

/-- The `workflow_run_id` computation of `createStatusReportBase`: `-1`
when `GITHUB_RUN_ID` is unset or empty (falsy), otherwise `parseInt` of
it, with `none` standing for `NaN`. -/
def reportRunId (x : Option String) : Option Int :=
  match x with
  | none => some (-1)
  | some s => if s = "" then some (-1) else jsParseInt s

/-- The `completed_at` field: set exactly for terminal statuses. -/
def completedAt (status nowIso : String) : Option String :=
  if status = "success" ∨ status = "failure" ∨ status = "aborted"
  then some nowIso else none

/-- `createStatusReportBase` from `lib/util.js`.  Dates are modelled by
their ISO strings: `actionStartedAt` is the ISO form of the action start
time and `nowIso` the ISO form of `new Date()` taken for `completed_at`.
`workflowPath` is the external workflow-metadata collaborator's answer and
`matrixInput` the `matrix` action input.  Returns the report, the updated
environment store, and the number of workflow-metadata lookups
performed. -/
def createStatusReportBase (workflowPath matrixInput nowIso : String)
    (actionName status actionStartedAt : String)
    (cause exception : Option String) (env : Env) :
    Except String (StatusReport × Env × Nat) :=
  let commitOid := (env "GITHUB_SHA").getD ""
  match getRef env with
  | .error e => .error e
  | .ok ref =>
      let workflowRunID := reportRunId (env "GITHUB_RUN_ID")
      let workflowName := (env "GITHUB_WORKFLOW").getD ""
      let jobName := (env "GITHUB_JOB").getD ""
      match getAnalysisKey workflowPath env with
      | .error e => .error e
      | .ok (analysisKey, env1, lookups) =>
          let startedPair :=
            match env1 WORKFLOW_STARTED_AT_VAR with
            | some t => (t, env1)
            | none => (actionStartedAt, envSet env1 WORKFLOW_STARTED_AT_VAR actionStartedAt)
          let report : StatusReport :=
            { workflow_run_id := workflowRunID
              workflow_name := workflowName
              job_name := jobName
              analysis_key := analysisKey
              commit_oid := commitOid
              ref := ref
              action_name := actionName
              action_oid := "unknown"
              started_at := startedPair.1
              action_started_at := actionStartedAt
              status := status
              cause := keepTruthy cause
              exception := keepTruthy exception
              completed_at := completedAt status nowIso
              matrix_vars := if matrixInput = "" then none else some matrixInput }
          .ok (report, startedPair.2, lookups)

/-- Two successive `createStatusReportBase` calls within one job, the
second reading the environment store as the first left it.  Returns both
reports, each with the number of external workflow-metadata lookups its
call performed. -/
def buildReportTwice (wp mi : String) (n1 a1 s1 t1 n2 a2 s2 t2 : String)
    (c1 e1 c2 e2 : Option String) (env : Env) :
    Except String ((StatusReport × Nat) × (StatusReport × Nat)) :=
  match createStatusReportBase wp mi n1 a1 s1 t1 c1 e1 env with
  | .error e => .error e
  | .ok (r1, env1, k1) =>
      match createStatusReportBase wp mi n2 a2 s2 t2 c2 e2 env1 with
      | .error e => .error e
      | .ok (r2, _, k2) => .ok ((r1, k1), (r2, k2))

/-- `sendStatusReport` from `lib/util.js`: serialize and `PUT` the report
(the network call itself is external; only its response status matters),
then classify the response.  Returns `false` exactly when failures are
not ignored and the endpoint answered 403 or 404. -/
def sendStatusReport (env : Env) (responseStatus : Nat) (ignoreFailures : Bool) :
    Except String Bool :=
  match getRequiredEnvParam env "GITHUB_REPOSITORY" with
  | .error e => .error e
  | .ok _ =>
      if !ignoreFailures then
        if responseStatus = 403 then .ok false
        else if responseStatus = 404 then .ok false
        else .ok true
      else .ok true

/-- An HTTP response to one delivery attempt: `status` is `none` when the
transport produced no status, `requestId` is the `x-github-request-id`
header and `body` the serialized `response.data`. -/
structure Response where
  status : Option Nat
  requestId : String
  body : String
  deriving DecidableEq, Repr

/-- How one `uploadPayload` invocation ended.  `httpError` is the
fail-fast throw on a status that is neither 202 nor in `[500, 600)`
(including an absent status); `retriesExhausted` is the throw after the
final attempt still returned a status in `[500, 600)`.  `testModeSkip` is
the early return in test mode, and `missingRepoEnv` the throw from
`getRequiredEnvParam("GITHUB_REPOSITORY")`. -/
inductive UploadOutcome
  | success
  | testModeSkip
  | missingRepoEnv
  | httpError (status : Option Nat) (requestId : String) (body : String)
  | retriesExhausted (status : Option Nat) (requestId : String) (body : String)
  deriving DecidableEq, Repr

/-- The observable behaviour of one `uploadPayload` invocation: its
outcome, the number of network calls made, and the list of backoff sleeps
performed, in seconds and in order. -/
structure UploadTrace where
  outcome : UploadOutcome
  attempts : Nat
  sleeps : List Nat
  deriving DecidableEq, Repr

/-- The fixed backoff table of `uploadPayload`, in seconds. -/
def backoffPeriods : List Nat := [1, 5, 15]

/-- Whether the fail-fast guard
`!statusCode || statusCode < 500 || statusCode >= 600` holds. -/
def failFastStatus : Option Nat → Bool
  | none => true
  | some s => decide (s < 500) || decide (600 ≤ s)

/-- The retry loop of `uploadPayload`.  `responses attempt` is the
response to the network call made at that attempt index; `backoffs` is
the suffix of the backoff table still available (the loop may retry while
it is nonempty, matching `attempt < backoffPeriods.length`). -/
def uploadAttempts (responses : Nat → Response) : List Nat → Nat → UploadTrace
  | backoffs, attempt =>
      let r := responses attempt
      if r.status = some 202 then ⟨.success, attempt + 1, []⟩
      else if failFastStatus r.status then
        ⟨.httpError r.status r.requestId r.body, attempt + 1, []⟩
      else
        match backoffs with
        | [] => ⟨.retriesExhausted r.status r.requestId r.body, attempt + 1, []⟩
        | b :: rest =>
            let t := uploadAttempts responses rest (attempt + 1)
            ⟨t.outcome, t.attempts, b :: t.sleeps⟩

/-- `uploadPayload` from `src/upload-lib.ts`: skip entirely in test mode,
require `GITHUB_REPOSITORY`, then run the retry loop over the fixed
backoff table. -/
def uploadPayload (env : Env) (responses : Nat → Response) : UploadTrace :=
  if env "TEST_MODE" = some "true" then ⟨.testModeSkip, 0, []⟩
  else
    match getRequiredEnvParam env "GITHUB_REPOSITORY" with
    | .error _ => ⟨.missingRepoEnv, 0, []⟩
    | .ok _ => uploadAttempts responses backoffPeriods 0

/-- The observable steps of one `uploadFiles` invocation, in execution
order: setting the sentinel flag, validating the i-th input file, running
the merge, running the fingerprinter, and making the network call of the
given attempt index. -/
inductive Event
  | sentinelSet
  | validateFile (i : Nat)
  | merge
  | fingerprint
  | networkCall (attempt : Nat)
  deriving DecidableEq, Repr

/-- Pipeline phase of an event, in the order the phases execute. -/
def phaseRank : Event → Nat
  | .sentinelSet => 0
  | .validateFile _ => 1
  | .merge => 2
  | .fingerprint => 3
  | .networkCall _ => 4

/-- The errors `uploadFiles` can throw. -/
inductive UError
  | duplicateUpload
  | invalidSarif (i : Nat)
  | missingEnv (msg : String)
  | versionMismatch (msg : String)
  | nanRunId
  | uploadFailed (o : UploadOutcome)
  deriving DecidableEq, Repr

/-- The `UploadStatusReport` statistics returned on success. -/
structure UploadStats where
  raw_upload_size_bytes : Nat
  zipped_upload_size_bytes : Nat
  num_results_in_sarif : Nat
  deriving DecidableEq, Repr

/-- The payload assembled by `uploadFiles` (the `JSON.stringify` argument
at the end of the function). -/
structure UploadPayloadRec where
  commit_oid : String
  ref : String
  analysis_key : String
  analysis_name : String
  sarif : String
  workflow_run_id : Int
  checkout_uri : String
  environment : Option String
  started_at : Option String
  tool_names : List String
  deriving DecidableEq, Repr

/-- The external collaborators of `uploadFiles`: the git commit lookup,
the workflow-metadata API, the action inputs `checkout_path` and
`matrix`, the JSON-schema validator's verdict on the i-th input file,
serialization, gzip-plus-base64, the fingerprinter, the `file-url`
conversion, and the upload endpoint's response to each attempt. -/
structure Collaborators where
  commitOid : String
  workflowPath : String
  checkoutPath : String
  matrixInput : String
  schemaValid : Nat → Bool
  serialize : CombinedSarif → String
  gzipB64 : String → String
  addFingerprints : CombinedSarif → CombinedSarif
  fileUrl : String → String
  responses : Nat → Response

/-- Everything observable about one `uploadFiles` invocation: its result,
the payload it assembled (when it got that far), the final environment
store, and the ordered event trace. -/
structure UploadFilesResult where
  result : Except UError UploadStats
  payload : Option UploadPayloadRec
  env : Env
  events : List Event

/-- The body of `uploadFiles` after the sentinel flag has been handled
(source lines 169-230): validate every input file in order, gather the
identity fields, merge, fingerprint, assemble the payload and deliver
it. -/
def uploadFilesInner (files : List SarifFile) (c : Collaborators) (env : Env) :
    UploadFilesResult :=
  match (List.range files.length).find? (fun i => !c.schemaValid i) with
  | some i => ⟨.error (.invalidSarif i), none, env, (List.range (i + 1)).map .validateFile⟩
  | none =>
    let validateEvents := (List.range files.length).map Event.validateFile
    match getRequiredEnvParam env "GITHUB_RUN_ID" with
    | .error e => ⟨.error (.missingEnv e), none, env, validateEvents⟩
    | .ok workflowRunIDStr =>
    match getRef env with
    | .error e => ⟨.error (.missingEnv e), none, env, validateEvents⟩
    | .ok ref =>
    match getAnalysisKey c.workflowPath env with
    | .error e => ⟨.error (.missingEnv e), none, env, validateEvents⟩
    | .ok (analysisKey, env1, _) =>
    match getRequiredEnvParam env1 "GITHUB_WORKFLOW" with
    | .error e => ⟨.error (.missingEnv e), none, env1, validateEvents⟩
    | .ok analysisName =>
    let startedAt := env1 WORKFLOW_STARTED_AT_VAR
    match combineSarifFiles files with
    | .error msg => ⟨.error (.versionMismatch msg), none, env1, validateEvents ++ [.merge]⟩
    | .ok combined =>
    let sarifPayload := c.addFingerprints combined
    let raw := c.serialize sarifPayload
    let zipped := c.gzipB64 raw
    let checkoutURI := c.fileUrl c.checkoutPath
    match jsParseInt workflowRunIDStr with
    | none => ⟨.error .nanRunId, none, env1, validateEvents ++ [.merge, .fingerprint]⟩
    | some workflowRunID =>
    let matrix :=
      if c.matrixInput = "null" ∨ c.matrixInput = "" then none else some c.matrixInput
    let toolNames := getToolNames sarifPayload.runs
    let payload : UploadPayloadRec :=
      ⟨c.commitOid, ref, analysisKey, analysisName, zipped, workflowRunID,
        checkoutURI, matrix, startedAt, toolNames⟩
    let stats : UploadStats :=
      ⟨raw.length, zipped.length, countResultsInSarif sarifPayload.runs⟩
    let t := uploadPayload env1 c.responses
    let events := validateEvents ++ [.merge, .fingerprint]
      ++ (List.range t.attempts).map Event.networkCall
    match t.outcome with
    | .success => ⟨.ok stats, some payload, env1, events⟩
    | .testModeSkip => ⟨.ok stats, some payload, env1, events⟩
    | o => ⟨.error (.uploadFailed o), some payload, env1, events⟩

/-- `uploadFiles` from `src/upload-lib.ts`: fail with the duplicate-upload
error when the sentinel flag is truthy in the environment store, otherwise
set the sentinel flag and run the rest of the pipeline. -/
def uploadFiles (files : List SarifFile) (c : Collaborators) (env : Env) :
    UploadFilesResult :=
  if truthy (env SENTINEL_VAR) then ⟨.error .duplicateUpload, none, env, []⟩
  else
    let env1 := envSet env SENTINEL_VAR SENTINEL_VAR
    let r := uploadFilesInner files c env1
    ⟨r.result, r.payload, r.env, .sentinelSet :: r.events⟩

/-- Whether a response status is retryable: present and in `[500, 600)`. -/
def retryableStatus : Option Nat → Bool
  | none => false
  | some s => decide (500 ≤ s) && decide (s < 600)

/-! ### Concrete fixtures used by witnesses and counterexamples -/

/-- An environment with only `GITHUB_REPOSITORY` set. -/
def envRepoOnly : Env := fun k => if k = "GITHUB_REPOSITORY" then some "octo/repo" else none

/-- Responses `[503, 503, 202, 202, ...]`. -/
def retryResponses : Nat → Response := fun i =>
  if i = 0 then ⟨some 503, "id0", "b0"⟩
  else if i = 1 then ⟨some 503, "id1", "b1"⟩
  else ⟨some 202, "id2", "b2"⟩

/-- Responses that always answer 404. -/
def notFoundResponses : Nat → Response := fun i => ⟨some 404, "idn" ++ toString i, "bn"⟩

/-- A run of a tool called `ToolA` with 3 results. -/
def runA : SarifRun := ⟨some "ToolA", 3⟩

/-- A run of a tool called `ToolB` with 5 results. -/
def runB : SarifRun := ⟨some "ToolB", 5⟩

/-- Events ordered by pipeline phase. -/
abbrev rankLE (a b : Event) : Prop := phaseRank a ≤ phaseRank b

/-- The ordering asserted by the specification: every merge event comes
before every schema-validation event. -/
def mergeCompletesBeforeValidation (evs : List Event) : Prop :=
  ∀ (i j : Nat) (hi : i < evs.length) (hj : j < evs.length) (n : Nat),
    evs.get ⟨i, hi⟩ = Event.merge → evs.get ⟨j, hj⟩ = Event.validateFile n → i < j

/-- An environment holding every variable `uploadFiles` needs, with the
sentinel flag unset. -/
def cxEnvFull : Env := fun k =>
  if k = "GITHUB_REPOSITORY" then some "octo/repo"
  else if k = "GITHUB_RUN_ID" then some "42"
  else if k = "GITHUB_REF" then some "refs/heads/main"
  else if k = "GITHUB_JOB" then some "analyze"
  else if k = "GITHUB_WORKFLOW" then some "CI"
  else if k = "GITHUB_SHA" then some "deadbeef"
  else none

/-- Like `cxEnvFull` but with the sentinel flag already set. -/
def cxEnvDup : Env := fun k =>
  if k = SENTINEL_VAR then some "CODEQL_UPLOAD_SARIF" else cxEnvFull k

/-- Like `cxEnvFull` but with the sentinel variable present and holding
the empty string. -/
def cxEnvEmptySentinel : Env := fun k =>
  if k = SENTINEL_VAR then some "" else cxEnvFull k

/-- Simple concrete collaborators: every file is schema-valid and every
delivery attempt is answered 202. -/
def cxCollab : Collaborators :=
  { commitOid := "deadbeef"
    workflowPath := "wf.yml"
    checkoutPath := "/w"
    matrixInput := ""
    schemaValid := fun _ => true
    serialize := fun _ => "{}"
    gzipB64 := fun s => s
    addFingerprints := fun d => d
    fileUrl := fun s => "file://" ++ s
    responses := fun _ => ⟨some 202, "id", "b"⟩ }

/-- One well-formed input file. -/
def cxFiles : List SarifFile := [⟨"2.1.0", [runA]⟩]

/-- Two well-formed input files sharing a version. -/
def cxFiles2 : List SarifFile := [⟨"2.1.0", [runA]⟩, ⟨"2.1.0", [runB]⟩]

/-- A ref exactly of the form `refs/pull/<N>/merge` for some number `N`
(the shape the specification says `getRef` rewrites). -/
def pullMergeForm (s : String) : Prop :=
  ∃ ds : List Char, ds ≠ [] ∧ (∀ c ∈ ds, isDigitChar c = true) ∧
    s.data = "refs/pull/".data ++ ds ++ "/merge".data

/-- The payload `uploadFiles` assembles on the `cxFiles`/`cxCollab`/
`cxEnvFull` input. -/
def cxPayload : UploadPayloadRec :=
  ⟨"deadbeef", "refs/heads/main", "wf.yml:analyze", "CI", "{}", 42, "file:///w",
   none, none, ["ToolA"]⟩

end Sarif

/-! ## Theorems -/

namespace Sarif

lemma retryable_ne_202 {st : Option Nat} (h : retryableStatus st = true) : st ≠ some 202 := by
  cases st with
  | none => simp [retryableStatus] at h
  | some s =>
      simp only [retryableStatus, Bool.and_eq_true, decide_eq_true_eq] at h
      intro hc
      cases hc
      omega

lemma retryable_not_failFast {st : Option Nat} (h : retryableStatus st = true) :
    failFastStatus st = false := by
  cases st with
  | none => simp [retryableStatus] at h
  | some s =>
      simp only [retryableStatus, Bool.and_eq_true, decide_eq_true_eq] at h
      simp only [failFastStatus, Bool.or_eq_false_iff, decide_eq_false_iff_not]
      omega

lemma not202_notFailFast_retryable {st : Option Nat} (h202 : st ≠ some 202)
    (hff : failFastStatus st = false) : retryableStatus st = true := by
  cases st with
  | none => simp [failFastStatus] at hff
  | some s =>
      simp only [failFastStatus, Bool.or_eq_false_iff, decide_eq_false_iff_not] at hff
      simp only [retryableStatus, Bool.and_eq_true, decide_eq_true_eq]
      omega

lemma uploadAttempts_success (responses : Nat → Response) (bs : List Nat) (a : Nat)
    (h : (responses a).status = some 202) :
    uploadAttempts responses bs a = ⟨.success, a + 1, []⟩ := by
  cases bs <;> simp [uploadAttempts, h]

lemma uploadAttempts_failFast (responses : Nat → Response) (bs : List Nat) (a : Nat)
    (h202 : (responses a).status ≠ some 202)
    (hff : failFastStatus (responses a).status = true) :
    uploadAttempts responses bs a =
      ⟨.httpError (responses a).status (responses a).requestId (responses a).body, a + 1, []⟩ := by
  cases bs <;> simp [uploadAttempts, h202, hff]

lemma uploadAttempts_exhaust (responses : Nat → Response) (a : Nat)
    (h : retryableStatus (responses a).status = true) :
    uploadAttempts responses [] a =
      ⟨.retriesExhausted (responses a).status (responses a).requestId (responses a).body,
       a + 1, []⟩ := by
  simp [uploadAttempts, retryable_ne_202 h, retryable_not_failFast h]

lemma uploadAttempts_retry (responses : Nat → Response) (b : Nat) (rest : List Nat) (a : Nat)
    (h : retryableStatus (responses a).status = true) :
    uploadAttempts responses (b :: rest) a =
      ⟨(uploadAttempts responses rest (a + 1)).outcome,
       (uploadAttempts responses rest (a + 1)).attempts,
       b :: (uploadAttempts responses rest (a + 1)).sleeps⟩ := by
  simp [uploadAttempts, retryable_ne_202 h, retryable_not_failFast h]

lemma uploadAttempts_attempts_le (responses : Nat → Response) (bs : List Nat) :
    ∀ a, (uploadAttempts responses bs a).attempts ≤ a + bs.length + 1 := by
  induction bs with
  | nil =>
      intro a
      by_cases h202 : (responses a).status = some 202
      · simp [uploadAttempts_success responses [] a h202]
      · by_cases hff : failFastStatus (responses a).status = true
        · simp [uploadAttempts_failFast responses [] a h202 hff]
        · simp [uploadAttempts, h202, hff]
  | cons b rest ih =>
      intro a
      by_cases h202 : (responses a).status = some 202
      · simp [uploadAttempts_success responses _ a h202]
      · by_cases hff : failFastStatus (responses a).status = true
        · simp [uploadAttempts_failFast responses _ a h202 hff]
        · have hret := not202_notFailFast_retryable h202 (Bool.not_eq_true _ |>.mp hff)
          rw [uploadAttempts_retry responses b rest a hret]
          have := ih (a + 1)
          simp only [List.length_cons]
          omega

lemma uploadAttempts_reach (responses : Nat → Response) :
    ∀ (k : Nat) (bs : List Nat) (a : Nat), k ≤ bs.length →
      (∀ i, i < k → retryableStatus (responses (a + i)).status = true) →
      uploadAttempts responses bs a =
        ⟨(uploadAttempts responses (bs.drop k) (a + k)).outcome,
         (uploadAttempts responses (bs.drop k) (a + k)).attempts,
         bs.take k ++ (uploadAttempts responses (bs.drop k) (a + k)).sleeps⟩ := by
  intro k
  induction k with
  | zero => intro bs a _ _; simp
  | succ k ih =>
      intro bs a hlen hr
      cases bs with
      | nil => simp at hlen
      | cons b rest =>
          have h0 : retryableStatus (responses a).status = true := by
            have := hr 0 (Nat.succ_pos k)
            simpa using this
          rw [uploadAttempts_retry responses b rest a h0]
          have hrec := ih rest (a + 1) (by simpa using hlen) ?_
          · rw [hrec]
            simp only [List.drop_succ_cons, List.take_succ_cons, List.cons_append]
            have : a + 1 + k = a + (k + 1) := by omega
            rw [this]
          · intro i hi
            have := hr (i + 1) (by omega)
            have heq : a + (i + 1) = a + 1 + i := by omega
            rwa [heq] at this

lemma uploadPayload_run (env : Env) (responses : Nat → Response)
    (htest : env "TEST_MODE" ≠ some "true")
    (hrepo : ∃ v, env "GITHUB_REPOSITORY" = some v ∧ v ≠ "") :
    uploadPayload env responses = uploadAttempts responses backoffPeriods 0 := by
  obtain ⟨v, hv, hne⟩ := hrepo
  simp [uploadPayload, htest, getRequiredEnvParam, hv, hne]

/-- C1: outside test mode, `uploadPayload` makes at most 4 delivery
attempts; it stops with success at the first attempt returning status
202, having slept exactly the backoff periods of the attempts before it
(1s, 5s, 15s for attempt indices 0, 1, 2); and when all 4 attempts return
a status in `[500, 600)` it fails through the retries-exhausted throw
carrying the last attempt's status, request id and response body, after
sleeps of 1s, 5s and 15s totalling 21s. -/
theorem uploadPayload_bounded_retry (env : Env) (responses : Nat → Response)
    (htest : env "TEST_MODE" ≠ some "true")
    (hrepo : ∃ v, env "GITHUB_REPOSITORY" = some v ∧ v ≠ "") :
    (uploadPayload env responses).attempts ≤ 4 ∧
    (∀ k, k ≤ 3 → (∀ i, i < k → retryableStatus (responses i).status = true) →
      (responses k).status = some 202 →
      uploadPayload env responses = ⟨.success, k + 1, backoffPeriods.take k⟩) ∧
    ((∀ i, i ≤ 3 → retryableStatus (responses i).status = true) →
      uploadPayload env responses =
        ⟨.retriesExhausted (responses 3).status (responses 3).requestId (responses 3).body,
         4, [1, 5, 15]⟩ ∧
      (uploadPayload env responses).sleeps.sum = 21) := by
  rw [uploadPayload_run env responses htest hrepo]
  refine ⟨?_, ?_, ?_⟩
  · have := uploadAttempts_attempts_le responses backoffPeriods 0
    simpa [backoffPeriods] using this
  · intro k hk hr h202
    have hreach := uploadAttempts_reach responses k backoffPeriods 0
      (by simp only [backoffPeriods, List.length_cons, List.length_nil]; omega)
      (by simpa using hr)
    rw [hreach]
    simp only [Nat.zero_add]
    rw [uploadAttempts_success responses _ k h202]
    simp
  · intro hr
    have hreach := uploadAttempts_reach responses 3 backoffPeriods 0
      (by simp [backoffPeriods]) (by simpa using fun i hi => hr i (by omega))
    rw [hreach]
    simp only [Nat.zero_add]
    have hdrop : backoffPeriods.drop 3 = [] := by simp [backoffPeriods]
    rw [hdrop, uploadAttempts_exhaust responses 3 (hr 3 (by omega))]
    simp [backoffPeriods]

/-- Witness for C1: on responses `[503, 503, 202]` the upload succeeds at
the third attempt after sleeping 1s then 5s. -/
theorem uploadPayload_bounded_retry_witness :
    envRepoOnly "TEST_MODE" ≠ some "true" ∧
    backoffPeriods.take 2 = [1, 5] ∧
    uploadPayload envRepoOnly retryResponses = ⟨.success, 2 + 1, backoffPeriods.take 2⟩ :=
  ⟨by decide, by decide,
    (uploadPayload_bounded_retry envRepoOnly retryResponses (by decide)
      ⟨"octo/repo", by decide, by decide⟩).2.1 2 (by decide) (by decide) (by decide)⟩

/-- C3: an attempt whose response status is neither 202 nor in
`[500, 600)` — including an absent status — makes `uploadPayload` fail at
once through the fail-fast throw carrying that status, request id and
response body, with no further attempt and no further sleep; in
particular a 404 on the first attempt fails after exactly one network
call and no sleep at all. -/
theorem uploadPayload_fail_fast (env : Env) (responses : Nat → Response)
    (htest : env "TEST_MODE" ≠ some "true")
    (hrepo : ∃ v, env "GITHUB_REPOSITORY" = some v ∧ v ≠ "") :
    (∀ k, k ≤ 3 → (∀ i, i < k → retryableStatus (responses i).status = true) →
      (responses k).status ≠ some 202 → failFastStatus (responses k).status = true →
      uploadPayload env responses =
        ⟨.httpError (responses k).status (responses k).requestId (responses k).body,
         k + 1, backoffPeriods.take k⟩) ∧
    ((responses 0).status = some 404 →
      uploadPayload env responses =
        ⟨.httpError (some 404) (responses 0).requestId (responses 0).body, 1, []⟩) := by
  have main : ∀ k, k ≤ 3 → (∀ i, i < k → retryableStatus (responses i).status = true) →
      (responses k).status ≠ some 202 → failFastStatus (responses k).status = true →
      uploadPayload env responses =
        ⟨.httpError (responses k).status (responses k).requestId (responses k).body,
         k + 1, backoffPeriods.take k⟩ := by
    intro k hk hr h202 hff
    rw [uploadPayload_run env responses htest hrepo]
    have hreach := uploadAttempts_reach responses k backoffPeriods 0
      (by simp only [backoffPeriods, List.length_cons, List.length_nil]; omega)
      (by simpa using hr)
    rw [hreach]
    simp only [Nat.zero_add]
    rw [uploadAttempts_failFast responses _ k h202 hff]
    simp
  refine ⟨main, ?_⟩
  intro h404
  have := main 0 (by omega) (by omega) (by rw [h404]; decide) (by rw [h404]; decide)
  rw [this, h404]
  simp

/-- Witness for C3: a 404 on the first attempt fails immediately with one
network call and no sleeping. -/
theorem uploadPayload_fail_fast_witness :
    uploadPayload envRepoOnly notFoundResponses =
      ⟨.httpError (some 404) (notFoundResponses 0).requestId (notFoundResponses 0).body, 1, []⟩ :=
  (uploadPayload_fail_fast envRepoOnly notFoundResponses (by decide)
    ⟨"octo/repo", by decide, by decide⟩).2 rfl

lemma combineSarifLoop_same (v : String) :
    ∀ (files : List SarifFile) (runsAcc : List SarifRun),
      (∀ f ∈ files, f.version = v) →
      combineSarifLoop files ⟨some v, runsAcc⟩ =
        .ok ⟨some v, runsAcc ++ (files.map SarifFile.runs).flatten⟩
  | [], runsAcc, _ => by simp [combineSarifLoop]
  | f :: rest, runsAcc, h => by
      have hf : f.version = v := h f (by simp)
      simp only [combineSarifLoop, hf, if_pos]
      rw [combineSarifLoop_same v rest (runsAcc ++ f.runs) (fun g hg => h g (by simp [hg]))]
      simp

lemma combineSarifLoop_mismatch (v : String) (g : SarifFile) (hg : g.version ≠ v) :
    ∀ (pre : List SarifFile) (post : List SarifFile) (runsAcc : List SarifRun),
      (∀ f ∈ pre, f.version = v) →
      combineSarifLoop (pre ++ g :: post) ⟨some v, runsAcc⟩ =
        .error ("Different SARIF versions encountered: " ++ v ++ " and " ++ g.version)
  | [], post, runsAcc, _ => by simp [combineSarifLoop, hg]
  | f :: rest, post, runsAcc, h => by
      have hf : f.version = v := h f (by simp)
      simp only [List.cons_append, combineSarifLoop, hf, if_pos]
      exact combineSarifLoop_mismatch v g hg rest post (runsAcc ++ f.runs)
        (fun p hp => h p (by simp [hp]))

/-- C5: on a non-empty list of parsed files that all declare the same
version, `combineSarifFiles` returns one document carrying that shared
version whose runs are the concatenation of the files' runs in file
order then within-file order (duplicates kept); and when a later file's
version differs from the first file's version (all files before it
agreeing), it fails with the error message naming the first file's
version and the differing one. -/
theorem combineSarifFiles_spec (f : SarifFile) (rest : List SarifFile) :
    ((∀ g ∈ f :: rest, g.version = f.version) →
      combineSarifFiles (f :: rest) =
        .ok ⟨some f.version, ((f :: rest).map SarifFile.runs).flatten⟩) ∧
    (∀ pre g post, rest = pre ++ g :: post → (∀ p ∈ pre, p.version = f.version) →
      g.version ≠ f.version →
      combineSarifFiles (f :: rest) =
        .error ("Different SARIF versions encountered: " ++ f.version ++ " and " ++ g.version)) := by
  constructor
  · intro h
    simp only [combineSarifFiles, combineSarifLoop]
    rw [combineSarifLoop_same f.version rest (List.nil ++ f.runs)
      (fun g hg => h g (by simp [hg]))]
    simp
  · intro pre g post hrest hpre hne
    simp only [combineSarifFiles, combineSarifLoop, hrest]
    exact combineSarifLoop_mismatch f.version g hne pre post (List.nil ++ f.runs) hpre

/-- Witness for C5: merging two version-2.1.0 files with runs `[A]` and
`[B]` yields version 2.1.0 and runs `[A, B]`; versions 2.1.0 and 2.0.0
fail naming both. -/
theorem combineSarifFiles_spec_witness :
    combineSarifFiles [⟨"2.1.0", [runA]⟩, ⟨"2.1.0", [runB]⟩] =
      .ok ⟨some "2.1.0", [runA, runB]⟩ ∧
    combineSarifFiles [⟨"2.1.0", [runA]⟩, ⟨"2.0.0", [runB]⟩] =
      .error "Different SARIF versions encountered: 2.1.0 and 2.0.0" := by
  constructor
  · have h := (combineSarifFiles_spec ⟨"2.1.0", [runA]⟩ [⟨"2.1.0", [runB]⟩]).1 (by decide)
    simpa using h
  · have h := (combineSarifFiles_spec ⟨"2.1.0", [runA]⟩ [⟨"2.0.0", [runB]⟩]).2
      [] ⟨"2.0.0", [runB]⟩ [] rfl (by simp) (by decide)
    simpa using h

/-- C7: `sendStatusReport` returns `false` exactly when failures are not
ignored and the status endpoint answered 403 or 404; with
`ignoreFailures = true` every response — the same 403 included — yields
`true`, and under strict checking every other status yields `true`. -/
theorem sendStatusReport_classification (env : Env) (st : Nat)
    (hrepo : ∃ v, env "GITHUB_REPOSITORY" = some v ∧ v ≠ "") :
    (sendStatusReport env st false = .ok false ↔ st = 403 ∨ st = 404) ∧
    sendStatusReport env st true = .ok true ∧
    (st ≠ 403 → st ≠ 404 → sendStatusReport env st false = .ok true) := by
  obtain ⟨v, hv, hne⟩ := hrepo
  simp only [sendStatusReport, getRequiredEnvParam, hv, hne, if_neg hne]
  refine ⟨?_, by simp, ?_⟩
  · by_cases h3 : st = 403
    · simp [h3]
    · by_cases h4 : st = 404 <;> simp [h3, h4]
  · intro h3 h4
    simp [h3, h4]

/-- Witness for C7: a 403 answer yields `false` under strict checking and
`true` when failures are ignored. -/
theorem sendStatusReport_classification_witness :
    sendStatusReport envRepoOnly 403 false = .ok false ∧
    sendStatusReport envRepoOnly 403 true = .ok true := by
  have h := sendStatusReport_classification envRepoOnly 403 ⟨"octo/repo", by decide, by decide⟩
  exact ⟨h.1.mpr (Or.inl rfl), h.2.1⟩

lemma foldl_insertKey (names : List String) :
    ∀ acc : List String, names.foldl insertKey acc =
      acc ++ (dedupFirst names).filter (fun n => decide (n ∉ acc)) := by
  induction names with
  | nil => intro acc; simp [dedupFirst]
  | cons n rest ih =>
      intro acc
      simp only [List.foldl_cons, dedupFirst]
      by_cases hmem : n ∈ acc
      · rw [insertKey, if_pos hmem, ih acc]
        congr 1
        rw [List.filter_cons]
        simp only [hmem, not_true_eq_false, decide_False, Bool.false_eq_true, if_false]
        rw [List.filter_filter]
        apply List.filter_congr
        intro x hx
        by_cases hxa : x ∈ acc
        · simp [hxa]
        · have hxn : x ≠ n := fun h => hxa (h ▸ hmem)
          simp [hxa, hxn]
      · rw [insertKey, if_neg hmem, ih (acc ++ [n])]
        rw [List.filter_cons]
        simp only [hmem, not_false_eq_true, decide_True, if_true]
        rw [List.append_assoc]
        congr 1
        simp only [List.singleton_append]
        congr 1
        rw [List.filter_filter]
        apply List.filter_congr
        intro x hx
        by_cases hxn : x = n
        · simp [hxn]
        · by_cases hxa : x ∈ acc
          · simp [hxa, hxn]
          · simp [hxa, hxn]

lemma jsObjectKeys_eq (names : List String) :
    jsObjectKeys names =
      List.insertionSort (fun a b => keyNumVal a ≤ keyNumVal b)
        ((dedupFirst names).filter isArrayIndex)
      ++ (dedupFirst names).filter (fun s => !isArrayIndex s) := by
  simp only [jsObjectKeys]
  rw [foldl_insertKey names []]
  simp

lemma mem_dedupFirst {x : String} : ∀ {l : List String}, x ∈ dedupFirst l ↔ x ∈ l
  | [] => by simp [dedupFirst]
  | n :: rest => by
      simp only [dedupFirst, List.mem_cons, List.mem_filter]
      by_cases hxn : x = n
      · simp [hxn]
      · simp only [hxn, false_or, decide_eq_true_eq]
        rw [@mem_dedupFirst x rest]
        simp [hxn]

lemma dedupFirst_nodup : ∀ l : List String, (dedupFirst l).Nodup
  | [] => by simp [dedupFirst]
  | n :: rest => by
      simp only [dedupFirst, List.nodup_cons]
      constructor
      · intro hmem
        have := (List.mem_filter.mp hmem).2
        simp at this
      · exact (dedupFirst_nodup rest).filter _

lemma mem_validDriverNames {n : String} {runs : List SarifRun} :
    n ∈ validDriverNames runs ↔ ∃ r ∈ runs, r.driverName = some n ∧ n ≠ "" := by
  simp only [validDriverNames, List.mem_filterMap]
  constructor
  · rintro ⟨r, hr, hf⟩
    refine ⟨r, hr, ?_⟩
    cases hd : r.driverName with
    | none => rw [hd] at hf; simp at hf
    | some m =>
        rw [hd] at hf
        by_cases hm : m = ""
        · simp [hm] at hf
        · simp only [hm, if_false] at hf
          cases hf
          exact ⟨rfl, hm⟩
  · rintro ⟨r, hr, hd, hn⟩
    exact ⟨r, hr, by simp [hd, hn]⟩

/-- C9 (amended): `getToolNames` returns the valid driver names without
duplicates — each name registered at its first appearance — but ordered
as JavaScript `Object.keys` orders a plain object's properties: the names
that are canonical array-index numerals come first in ascending numeric
order, followed by the remaining names in order of first appearance
across the runs sequence.  A name appears in the result exactly when some
run's tool driver carries it (non-empty).  On two `ESLint` runs and one
`CodeQL` run the result is exactly `["ESLint", "CodeQL"]`. -/
theorem getToolNames_object_key_order (runs : List SarifRun) :
    getToolNames runs =
      List.insertionSort (fun a b => keyNumVal a ≤ keyNumVal b)
        ((dedupFirst (validDriverNames runs)).filter isArrayIndex)
      ++ (dedupFirst (validDriverNames runs)).filter (fun s => !isArrayIndex s) ∧
    (getToolNames runs).Nodup ∧
    (∀ n, n ∈ getToolNames runs ↔ ∃ r ∈ runs, r.driverName = some n ∧ n ≠ "") ∧
    getToolNames [⟨some "ESLint", 2⟩, ⟨some "ESLint", 0⟩, ⟨some "CodeQL", 1⟩]
      = ["ESLint", "CodeQL"] := by
  have heq := jsObjectKeys_eq (validDriverNames runs)
  have hsortperm := List.perm_insertionSort (fun a b => keyNumVal a ≤ keyNumVal b)
    ((dedupFirst (validDriverNames runs)).filter isArrayIndex)
  refine ⟨heq, ?_, ?_, by decide⟩
  · rw [getToolNames, heq, List.nodup_append]
    refine ⟨hsortperm.nodup_iff.mpr ((dedupFirst_nodup _).filter _),
      (dedupFirst_nodup _).filter _, ?_⟩
    intro a ha hb
    have ha' := (List.mem_filter.mp (hsortperm.mem_iff.mp ha)).2
    have hb' := (List.mem_filter.mp hb).2
    rw [ha'] at hb'
    simp at hb'
  · intro n
    rw [getToolNames, heq]
    rw [List.mem_append, hsortperm.mem_iff, List.mem_filter, List.mem_filter]
    rw [← mem_validDriverNames]
    constructor
    · rintro (⟨h, _⟩ | ⟨h, _⟩) <;> exact mem_dedupFirst.mp h
    · intro h
      by_cases hidx : isArrayIndex n
      · exact Or.inl ⟨mem_dedupFirst.mpr h, hidx⟩
      · exact Or.inr ⟨mem_dedupFirst.mpr h, by simp [hidx]⟩

/-- Counterexample to C9 as stated: on a document whose driver names are
the numeric strings `"1"` then `"0"`, the code returns `["0", "1"]`
(JavaScript array-index key ordering), not the order of first appearance
`["1", "0"]`. -/
theorem getToolNames_counterexample :
    getToolNames [⟨some "1", 0⟩, ⟨some "0", 0⟩] = ["0", "1"] ∧
    dedupFirst (validDriverNames [⟨some "1", 0⟩, ⟨some "0", 0⟩]) = ["1", "0"] ∧
    getToolNames [⟨some "1", 0⟩, ⟨some "0", 0⟩] ≠
      dedupFirst (validDriverNames [⟨some "1", 0⟩, ⟨some "0", 0⟩]) := by
  decide

lemma pairwise_networks (n : Nat) : ((List.range n).map Event.networkCall).Pairwise rankLE := by
  rw [List.pairwise_map]
  exact (List.pairwise_le_range n).imp fun _ => le_refl 4

lemma validates_append_spec (m : Nat) (tail : List Event)
    (ht1 : ∀ e ∈ tail, 1 ≤ phaseRank e) (ht2 : tail.Pairwise rankLE) :
    (∀ e ∈ (List.range m).map Event.validateFile ++ tail, 1 ≤ phaseRank e) ∧
    ((List.range m).map Event.validateFile ++ tail).Pairwise rankLE := by
  constructor
  · intro e he
    rcases List.mem_append.mp he with h | h
    · obtain ⟨i, _, rfl⟩ := List.mem_map.mp h
      exact le_refl 1
    · exact ht1 e h
  · rw [List.pairwise_append]
    refine ⟨?_, ht2, ?_⟩
    · rw [List.pairwise_map]
      exact (List.pairwise_le_range m).imp fun _ => le_refl 1
    · intro a ha b hb
      obtain ⟨i, _, rfl⟩ := List.mem_map.mp ha
      exact ht1 b hb

lemma merge_tail_spec (n : Nat) :
    (∀ e ∈ [Event.merge, Event.fingerprint] ++ (List.range n).map Event.networkCall,
      1 ≤ phaseRank e) ∧
    ([Event.merge, Event.fingerprint] ++ (List.range n).map Event.networkCall).Pairwise rankLE := by
  constructor
  · intro e he
    rcases List.mem_append.mp he with h | h
    · fin_cases h <;> decide
    · obtain ⟨i, _, rfl⟩ := List.mem_map.mp h
      simp [phaseRank]
  · rw [List.pairwise_append]
    refine ⟨by decide, pairwise_networks n, ?_⟩
    intro a ha b hb
    obtain ⟨i, _, rfl⟩ := List.mem_map.mp hb
    fin_cases ha <;> simp [phaseRank]

lemma inner_events_spec (files : List SarifFile) (c : Collaborators) (env : Env) :
    (∀ e ∈ (uploadFilesInner files c env).events, 1 ≤ phaseRank e) ∧
    (uploadFilesInner files c env).events.Pairwise rankLE := by
  unfold uploadFilesInner
  dsimp only
  repeat' split
  · simpa using validates_append_spec _ [] (by simp) (by simp)
  · simpa using validates_append_spec _ [] (by simp) (by simp)
  · simpa using validates_append_spec _ [] (by simp) (by simp)
  · simpa using validates_append_spec _ [] (by simp) (by simp)
  · simpa using validates_append_spec _ [] (by simp) (by simp)
  · exact validates_append_spec _ [Event.merge]
      (by intro e he; fin_cases he; decide) (by decide)
  · exact validates_append_spec _ [Event.merge, Event.fingerprint]
      (by intro e he; fin_cases he <;> decide) (by decide)
  all_goals
    rw [List.append_assoc]
    exact validates_append_spec _ _ (merge_tail_spec _).1 (merge_tail_spec _).2

lemma getAnalysisKey_preserves {wp : String} {env env' : Env} {r : String} {n : Nat}
    (h : getAnalysisKey wp env = .ok (r, env', n)) {k v : String} (hk : env k = some v) :
    env' k = some v := by
  unfold getAnalysisKey at h
  cases hak : env ANALYSIS_KEY_VAR with
  | some s => rw [hak] at h; cases h; exact hk
  | none =>
      rw [hak] at h
      cases hwp : getWorkflowPath wp env with
      | error e => rw [hwp] at h; cases h
      | ok p =>
          rw [hwp] at h
          cases hjob : getRequiredEnvParam env "GITHUB_JOB" with
          | error e => rw [hjob] at h; cases h
          | ok j =>
              rw [hjob] at h
              cases h
              unfold envSet
              by_cases hkk : k = ANALYSIS_KEY_VAR
              · rw [hkk, hak] at hk; cases hk
              · simp [hkk, hk]

lemma inner_env_preserves (files : List SarifFile) (c : Collaborators) (env : Env)
    {k v : String} (hk : env k = some v) :
    (uploadFilesInner files c env).env k = some v := by
  unfold uploadFilesInner
  dsimp only
  repeat' split
  any_goals exact hk
  all_goals exact getAnalysisKey_preserves (by assumption) hk

/-- C2: when the sentinel flag is already truthy in the environment
store, `uploadFiles` fails at once with the duplicate-upload error, makes
no network call (its event trace is empty) and leaves the store
untouched; otherwise it sets the sentinel flag exactly once, as its very
first step, and the flag is still set in the final store whatever happens
afterwards (validation failure, upload failure or success). -/
theorem uploadFiles_sentinel (files : List SarifFile) (c : Collaborators) (env : Env) :
    (truthy (env SENTINEL_VAR) = true →
      (uploadFiles files c env).result = .error .duplicateUpload ∧
      (uploadFiles files c env).events = [] ∧
      (uploadFiles files c env).env = env) ∧
    (truthy (env SENTINEL_VAR) = false →
      (uploadFiles files c env).env SENTINEL_VAR = some "CODEQL_UPLOAD_SARIF" ∧
      (uploadFiles files c env).events.head? = some .sentinelSet ∧
      (uploadFiles files c env).events.count .sentinelSet = 1) := by
  constructor
  · intro h
    simp [uploadFiles, h]
  · intro h
    have hset : envSet env SENTINEL_VAR SENTINEL_VAR SENTINEL_VAR = some SENTINEL_VAR := by
      simp [envSet]
    refine ⟨?_, ?_, ?_⟩
    · show (uploadFiles files c env).env SENTINEL_VAR = some SENTINEL_VAR
      simp only [uploadFiles, h, Bool.false_eq_true, if_false]
      exact inner_env_preserves files c _ hset
    · simp [uploadFiles, h]
    · simp only [uploadFiles, h, Bool.false_eq_true, if_false]
      have hnotmem : Event.sentinelSet ∉
          (uploadFilesInner files c (envSet env SENTINEL_VAR SENTINEL_VAR)).events := by
        intro hmem
        have := (inner_events_spec files c (envSet env SENTINEL_VAR SENTINEL_VAR)).1 _ hmem
        simp [phaseRank] at this
      rw [List.count_cons_self, List.count_eq_zero.mpr hnotmem]

/-- Witness for C2: with the sentinel set the upload fails with the
duplicate-upload error; with it unset the final store has the flag. -/
theorem uploadFiles_sentinel_witness :
    (uploadFiles cxFiles cxCollab cxEnvDup).result = Except.error UError.duplicateUpload ∧
    (uploadFiles cxFiles cxCollab cxEnvFull).env SENTINEL_VAR = some "CODEQL_UPLOAD_SARIF" :=
  ⟨((uploadFiles_sentinel cxFiles cxCollab cxEnvDup).1 (by decide)).1,
   ((uploadFiles_sentinel cxFiles cxCollab cxEnvFull).2 (by decide)).1⟩

/-- C4 (amended): in every `uploadFiles` invocation the phases execute in
nondecreasing pipeline order — sentinel handling, then schema validation
of each input file, then merge, then fingerprint, then delivery — so
schema validation of the input files runs to completion before merging
begins (the source validates each input file, not the merged document);
a full successful run over two files shows every phase in that order. -/
theorem uploadFiles_phase_order (files : List SarifFile) (c : Collaborators) (env : Env) :
    (uploadFiles files c env).events.Pairwise rankLE ∧
    (uploadFiles cxFiles2 cxCollab cxEnvFull).events =
      [.sentinelSet, .validateFile 0, .validateFile 1, .merge, .fingerprint, .networkCall 0] := by
  refine ⟨?_, by decide⟩
  by_cases h : truthy (env SENTINEL_VAR) = true
  · simp [uploadFiles, h]
  · have h' : truthy (env SENTINEL_VAR) = false := by simpa using h
    simp only [uploadFiles, h', Bool.false_eq_true, if_false]
    rw [List.pairwise_cons]
    exact ⟨fun e _ => Nat.zero_le _, (inner_events_spec files c _).2⟩

/-- Counterexample to C4 as stated: on a successful single-file upload
the event trace is sentinel, validate, merge, fingerprint, network call —
schema validation of the input file happens before the merge, so the
merge phase does not run to completion before validation begins. -/
theorem uploadFiles_merge_order_counterexample :
    (uploadFiles cxFiles cxCollab cxEnvFull).events =
      [.sentinelSet, .validateFile 0, .merge, .fingerprint, .networkCall 0] ∧
    ¬ mergeCompletesBeforeValidation (uploadFiles cxFiles cxCollab cxEnvFull).events := by
  have hev : (uploadFiles cxFiles cxCollab cxEnvFull).events =
      [.sentinelSet, .validateFile 0, .merge, .fingerprint, .networkCall 0] := by decide
  refine ⟨hev, ?_⟩
  rw [hev]
  intro h
  have h21 := h 2 1 (by norm_num) (by norm_num) 0 rfl rfl
  omega

/-- C6 (amended): `getAnalysisKey` and `createStatusReportBase` write a
store key only when it is absent, so they never change an existing stored
value; `uploadFiles` checks the sentinel for truthiness, so it never
changes an existing non-empty stored value (but does overwrite a sentinel
holding the empty string). -/
theorem store_write_once (k v : String) (env : Env) :
    (∀ (wp r : String) (env' : Env) (n : Nat),
      getAnalysisKey wp env = .ok (r, env', n) → env k = some v → env' k = some v) ∧
    (∀ (wp mi now an st asa : String) (cause exc : Option String)
      (rep : StatusReport) (env' : Env) (n : Nat),
      createStatusReportBase wp mi now an st asa cause exc env = .ok (rep, env', n) →
      env k = some v → env' k = some v) ∧
    (∀ (files : List SarifFile) (c : Collaborators),
      env k = some v → v ≠ "" → (uploadFiles files c env).env k = some v) := by
  refine ⟨fun wp r env' n h hk => getAnalysisKey_preserves h hk, ?_, ?_⟩
  · intro wp mi now an st asa cause exc rep env' n h hk
    unfold createStatusReportBase at h
    cases href : getRef env with
    | error e => rw [href] at h; cases h
    | ok ref =>
        rw [href] at h
        simp only at h
        cases hak : getAnalysisKey wp env with
        | error e => rw [hak] at h; cases h
        | ok trip =>
            obtain ⟨ak, env1, lk⟩ := trip
            rw [hak] at h
            simp only at h
            have hk1 : env1 k = some v := getAnalysisKey_preserves hak hk
            cases hst : env1 WORKFLOW_STARTED_AT_VAR with
            | some t => rw [hst] at h; cases h; exact hk1
            | none =>
                rw [hst] at h
                cases h
                unfold envSet
                by_cases hkk : k = WORKFLOW_STARTED_AT_VAR
                · rw [hkk, hst] at hk1; cases hk1
                · simp [hkk, hk1]
  · intro files c hk hv
    by_cases h : truthy (env SENTINEL_VAR) = true
    · simp [uploadFiles, h, hk]
    · have h' : truthy (env SENTINEL_VAR) = false := by simpa using h
      simp only [uploadFiles, h', Bool.false_eq_true, if_false]
      apply inner_env_preserves
      unfold envSet
      by_cases hkk : k = SENTINEL_VAR
      · rw [hkk] at hk
        rw [hk] at h'
        simp [truthy] at h'
        exact absurd h' hv
      · simp [hkk, hk]

/-- Counterexample to C6 as stated: when the sentinel variable exists in
the store holding the empty string, `uploadFiles` overwrites that
existing stored value (the truthiness check treats the empty string as
unset). -/
theorem store_write_once_counterexample :
    cxEnvEmptySentinel SENTINEL_VAR = some "" ∧
    (uploadFiles cxFiles cxCollab cxEnvEmptySentinel).env SENTINEL_VAR =
      some "CODEQL_UPLOAD_SARIF" ∧
    (uploadFiles cxFiles cxCollab cxEnvEmptySentinel).env SENTINEL_VAR ≠ some "" := by
  refine ⟨by decide, ?_, ?_⟩ <;> decide

/-- Witness for C6 (amended): an existing non-empty value survives a
full `uploadFiles` run. -/
theorem store_write_once_witness :
    (uploadFiles cxFiles cxCollab cxEnvFull).env "GITHUB_SHA" = some "deadbeef" :=
  (store_write_once "GITHUB_SHA" "deadbeef" cxEnvFull).2.2 cxFiles cxCollab
    (by decide) (by decide)

lemma createStatusReportBase_warm (wp mi now an st asa : String) (cause exc : Option String)
    (env : Env) (ak t0 r : String)
    (hak : env ANALYSIS_KEY_VAR = some ak)
    (hst : env WORKFLOW_STARTED_AT_VAR = some t0)
    (hr : env "GITHUB_REF" = some r) (hrne : r ≠ "") :
    createStatusReportBase wp mi now an st asa cause exc env =
      .ok ({ workflow_run_id := reportRunId (env "GITHUB_RUN_ID")
             workflow_name := (env "GITHUB_WORKFLOW").getD ""
             job_name := (env "GITHUB_JOB").getD ""
             analysis_key := ak
             commit_oid := (env "GITHUB_SHA").getD ""
             ref := getRefRewrite r
             action_name := an
             action_oid := "unknown"
             started_at := t0
             action_started_at := asa
             status := st
             cause := keepTruthy cause
             exception := keepTruthy exc
             completed_at := completedAt st now
             matrix_vars := if mi = "" then none else some mi }, env, 0) := by
  simp [createStatusReportBase, getRef, getRequiredEnvParam, getAnalysisKey, Except.map,
    hak, hst, hr, hrne]

lemma createStatusReportBase_cold (wp mi now an st asa : String) (cause exc : Option String)
    (env : Env) (rp ri j r : String)
    (hak : env ANALYSIS_KEY_VAR = none)
    (hst : env WORKFLOW_STARTED_AT_VAR = none)
    (hr : env "GITHUB_REF" = some r) (hrne : r ≠ "")
    (hrp : env "GITHUB_REPOSITORY" = some rp) (hrpne : rp ≠ "")
    (hri : env "GITHUB_RUN_ID" = some ri) (hrine : ri ≠ "")
    (hj : env "GITHUB_JOB" = some j) (hjne : j ≠ "") :
    createStatusReportBase wp mi now an st asa cause exc env =
      .ok ({ workflow_run_id := reportRunId (env "GITHUB_RUN_ID")
             workflow_name := (env "GITHUB_WORKFLOW").getD ""
             job_name := (env "GITHUB_JOB").getD ""
             analysis_key := wp ++ ":" ++ j
             commit_oid := (env "GITHUB_SHA").getD ""
             ref := getRefRewrite r
             action_name := an
             action_oid := "unknown"
             started_at := asa
             action_started_at := asa
             status := st
             cause := keepTruthy cause
             exception := keepTruthy exc
             completed_at := completedAt st now
             matrix_vars := if mi = "" then none else some mi },
           envSet (envSet env ANALYSIS_KEY_VAR (wp ++ ":" ++ j))
             WORKFLOW_STARTED_AT_VAR asa,
           1) := by
  have hst2 : env "CODEQL_WORKFLOW_STARTED_AT" = none := hst
  have h1 : envSet env ANALYSIS_KEY_VAR (wp ++ ":" ++ j) WORKFLOW_STARTED_AT_VAR = none := by
    simp [envSet, ANALYSIS_KEY_VAR, WORKFLOW_STARTED_AT_VAR, hst2]
  simp [createStatusReportBase, getRef, getRequiredEnvParam, getAnalysisKey, getWorkflowPath,
    Except.map, hak, hst, hst2, hr, hrne, hrp, hrpne, hri, hrine, hj, hjne, h1]

/-- C8: calling `createStatusReportBase` twice within one job (the second
call reading the store as the first left it, with neither identity field
cached beforehand) produces reports agreeing on `analysis_key` and on
`started_at`; the first call performs the single external
workflow-metadata lookup and caches both fields, the second call performs
none, and the job-wide `started_at` is the first call's
`actionStartedAt`. -/
theorem createStatusReportBase_cached_identity
    (env : Env) (wp mi n1 a1 s1 t1 n2 a2 s2 t2 : String) (c1 e1 c2 e2 : Option String)
    (hak : env ANALYSIS_KEY_VAR = none)
    (hst : env WORKFLOW_STARTED_AT_VAR = none)
    (href : ∃ r, env "GITHUB_REF" = some r ∧ r ≠ "")
    (hrepo : ∃ rp, env "GITHUB_REPOSITORY" = some rp ∧ rp ≠ "")
    (hrun : ∃ ri, env "GITHUB_RUN_ID" = some ri ∧ ri ≠ "")
    (hjob : ∃ j, env "GITHUB_JOB" = some j ∧ j ≠ "") :
    ∃ r1 r2 : StatusReport,
      buildReportTwice wp mi n1 a1 s1 t1 n2 a2 s2 t2 c1 e1 c2 e2 env =
        .ok ((r1, 1), (r2, 0)) ∧
      r1.analysis_key = r2.analysis_key ∧
      r1.started_at = r2.started_at ∧
      r1.started_at = t1 := by
  obtain ⟨r, hr, hrne⟩ := href
  obtain ⟨rp, hrp, hrpne⟩ := hrepo
  obtain ⟨ri, hri, hrine⟩ := hrun
  obtain ⟨j, hj, hjne⟩ := hjob
  have h1 := createStatusReportBase_cold wp mi n1 a1 s1 t1 c1 e1 env rp ri j r
    hak hst hr hrne hrp hrpne hri hrine hj hjne
  have hak1 : envSet (envSet env ANALYSIS_KEY_VAR (wp ++ ":" ++ j))
      WORKFLOW_STARTED_AT_VAR t1 ANALYSIS_KEY_VAR = some (wp ++ ":" ++ j) := by
    simp [envSet, ANALYSIS_KEY_VAR, WORKFLOW_STARTED_AT_VAR]
  have hst1 : envSet (envSet env ANALYSIS_KEY_VAR (wp ++ ":" ++ j))
      WORKFLOW_STARTED_AT_VAR t1 WORKFLOW_STARTED_AT_VAR = some t1 := by
    simp [envSet]
  have hr1 : envSet (envSet env ANALYSIS_KEY_VAR (wp ++ ":" ++ j))
      WORKFLOW_STARTED_AT_VAR t1 "GITHUB_REF" = some r := by
    simp [envSet, ANALYSIS_KEY_VAR, WORKFLOW_STARTED_AT_VAR, hr]
  obtain ⟨R1, E1, hc1, hkey1, hstart1, hakE, hstE, hrE⟩ :
      ∃ R E, createStatusReportBase wp mi n1 a1 s1 t1 c1 e1 env = .ok (R, E, 1) ∧
        R.analysis_key = wp ++ ":" ++ j ∧ R.started_at = t1 ∧
        E ANALYSIS_KEY_VAR = some (wp ++ ":" ++ j) ∧
        E WORKFLOW_STARTED_AT_VAR = some t1 ∧ E "GITHUB_REF" = some r :=
    ⟨_, _, h1, rfl, rfl, hak1, hst1, hr1⟩
  have h2 := createStatusReportBase_warm wp mi n2 a2 s2 t2 c2 e2 E1 (wp ++ ":" ++ j) t1 r
    hakE hstE hrE hrne
  obtain ⟨R2, hc2, hkey2, hstart2⟩ :
      ∃ R, createStatusReportBase wp mi n2 a2 s2 t2 c2 e2 E1 = .ok (R, E1, 0) ∧
        R.analysis_key = wp ++ ":" ++ j ∧ R.started_at = t1 :=
    ⟨_, h2, rfl, rfl⟩
  refine ⟨R1, R2, ?_, ?_, ?_, ?_⟩
  · simp only [buildReportTwice, hc1, hc2]
  · rw [hkey1, hkey2]
  · rw [hstart1, hstart2]
  · exact hstart1

/-- Witness for C8: two concrete calls over `cxEnvFull` perform one then
zero lookups, agree on the analysis key and on the job start time, and
record the first call's start time. -/
theorem createStatusReportBase_cached_identity_witness :
    Except.map (fun p => (p.1.2, p.2.2))
      (buildReportTwice "wf.yml" "" "nowA" "upload-sarif" "starting" "timeA"
        "nowB" "upload-sarif" "success" "timeB" none none none none cxEnvFull) =
      .ok (1, 0) ∧
    Except.map (fun p => decide (p.1.1.analysis_key = p.2.1.analysis_key))
      (buildReportTwice "wf.yml" "" "nowA" "upload-sarif" "starting" "timeA"
        "nowB" "upload-sarif" "success" "timeB" none none none none cxEnvFull) =
      .ok true ∧
    Except.map (fun p => decide (p.1.1.started_at = p.2.1.started_at))
      (buildReportTwice "wf.yml" "" "nowA" "upload-sarif" "starting" "timeA"
        "nowB" "upload-sarif" "success" "timeB" none none none none cxEnvFull) =
      .ok true ∧
    Except.map (fun p => p.1.1.started_at)
      (buildReportTwice "wf.yml" "" "nowA" "upload-sarif" "starting" "timeA"
        "nowB" "upload-sarif" "success" "timeB" none none none none cxEnvFull) =
      .ok "timeA" := by
  obtain ⟨r1, r2, heq, hkey, hstart, ht1⟩ := createStatusReportBase_cached_identity cxEnvFull
    "wf.yml" "" "nowA" "upload-sarif" "starting" "timeA" "nowB" "upload-sarif" "success" "timeB"
    none none none none (by decide) (by decide)
    ⟨"refs/heads/main", by decide, by decide⟩ ⟨"octo/repo", by decide, by decide⟩
    ⟨"42", by decide, by decide⟩ ⟨"analyze", by decide, by decide⟩
  rw [heq]
  refine ⟨?_, ?_, ?_, ?_⟩
  · simp [Except.map]
  · simp [Except.map, hkey]
  · simp [Except.map, hstart]
  · simp [Except.map, ht1]

lemma takeWhile_digits (rest : List Char) (hrest : rest.head? = some '/') :
    ∀ ds : List Char, (∀ c ∈ ds, isDigitChar c = true) →
      (ds ++ rest).takeWhile isDigitChar = ds ∧ (ds ++ rest).dropWhile isDigitChar = rest
  | [], _ => by
      cases rest with
      | nil => simp at hrest
      | cons c tl =>
          have hc : c = '/' := by simpa using hrest
          subst hc
          have hslash : isDigitChar '/' = false := by decide
          constructor
          · rw [List.nil_append, List.takeWhile_cons, hslash]
            simp
          · rw [List.nil_append, List.dropWhile_cons, hslash]
            simp
  | c :: ds', h => by
      have hc : isDigitChar c = true := h c (by simp)
      have ih := takeWhile_digits rest hrest ds' (fun x hx => h x (by simp [hx]))
      constructor
      · rw [List.cons_append, List.takeWhile_cons, hc]
        simp [ih.1]
      · rw [List.cons_append, List.dropWhile_cons, hc]
        simp [ih.2]

lemma matchPullMergeAt_exact (ds : List Char) (hne : ds ≠ [])
    (hdig : ∀ c ∈ ds, isDigitChar c = true) (after : List Char) :
    matchPullMergeAt ("refs/pull/".data ++ (ds ++ ("/merge".data ++ after))) =
      some (ds, after) := by
  have hlen : ("refs/pull/".data).length = 10 := by decide
  have htake := @List.take_left' Char "refs/pull/".data (ds ++ ("/merge".data ++ after)) 10 hlen
  have hdrop := @List.drop_left' Char "refs/pull/".data (ds ++ ("/merge".data ++ after)) 10 hlen
  have hhead : ("/merge".data ++ after).head? = some '/' := rfl
  have hw := takeWhile_digits ("/merge".data ++ after) hhead ds hdig
  have hlen6 : ("/merge".data).length = 6 := by decide
  have htake6 := @List.take_left' Char "/merge".data after 6 hlen6
  have hdrop6 := @List.drop_left' Char "/merge".data after 6 hlen6
  rw [matchPullMergeAt]
  dsimp only
  rw [htake, if_pos rfl, hdrop, hw.1, hw.2, htake6, hdrop6]
  simp [hne]

lemma replacePullMerge_exact (ds : List Char) (hne : ds ≠ [])
    (hdig : ∀ c ∈ ds, isDigitChar c = true) (after : List Char) :
    replacePullMerge ("refs/pull/".data ++ (ds ++ ("/merge".data ++ after))) =
      some ("refs/pull/".data ++ ds ++ "/head".data ++ after) := by
  have hm := matchPullMergeAt_exact ds hne hdig after
  have hcons : "refs/pull/".data ++ (ds ++ ("/merge".data ++ after)) =
      'r' :: ("efs/pull/".data ++ (ds ++ ("/merge".data ++ after))) := rfl
  rw [hcons, replacePullMerge, ← hcons, hm]

lemma matchPullMergeAt_sound {cs : List Char} {ds after : List Char}
    (h : matchPullMergeAt cs = some (ds, after)) :
    ds ≠ [] ∧ (∀ c ∈ ds, isDigitChar c = true) ∧
      cs = "refs/pull/".data ++ ds ++ "/merge".data ++ after := by
  rw [matchPullMergeAt] at h
  dsimp only at h
  by_cases h10 : cs.take 10 = "refs/pull/".data
  · rw [if_pos h10] at h
    by_cases hcond : (cs.drop 10).takeWhile isDigitChar ≠ [] ∧
        ((cs.drop 10).dropWhile isDigitChar).take 6 = "/merge".data
    · rw [if_pos hcond] at h
      cases h
      refine ⟨hcond.1, fun c hc => List.mem_takeWhile_imp hc, ?_⟩
      have hcs : cs = cs.take 10 ++ cs.drop 10 := (List.take_append_drop 10 cs).symm
      have hsplit : cs.drop 10 =
          (cs.drop 10).takeWhile isDigitChar ++ (cs.drop 10).dropWhile isDigitChar :=
        (List.takeWhile_append_dropWhile _ _).symm
      have hsplit6 : (cs.drop 10).dropWhile isDigitChar =
          ((cs.drop 10).dropWhile isDigitChar).take 6 ++
          ((cs.drop 10).dropWhile isDigitChar).drop 6 :=
        (List.take_append_drop 6 _).symm
      conv_lhs => rw [hcs, h10, hsplit, hsplit6, hcond.2]
      simp [List.append_assoc]
    · rw [if_neg hcond] at h
      cases h
  · rw [if_neg h10] at h
    cases h

lemma replacePullMerge_decomp : ∀ (cs l : List Char), replacePullMerge cs = some l →
    ∃ pre ds post, ds ≠ [] ∧ (∀ c ∈ ds, isDigitChar c = true) ∧
      cs = pre ++ "refs/pull/".data ++ ds ++ "/merge".data ++ post ∧
      l = pre ++ "refs/pull/".data ++ ds ++ "/head".data ++ post
  | [], l, h => by cases h
  | c :: rest, l, h => by
      rw [replacePullMerge] at h
      cases hm : matchPullMergeAt (c :: rest) with
      | some p =>
          obtain ⟨ds, after⟩ := p
          rw [hm] at h
          cases h
          obtain ⟨hne, hdig, hcs⟩ := matchPullMergeAt_sound hm
          exact ⟨[], ds, after, hne, hdig, by simpa using hcs, by simp⟩
      | none =>
          rw [hm] at h
          cases hrec : replacePullMerge rest with
          | none => rw [hrec] at h; cases h
          | some lx =>
              rw [hrec] at h
              cases h
              obtain ⟨pre, ds, post, hne, hdig, hcs, hl⟩ :=
                replacePullMerge_decomp rest lx hrec
              exact ⟨c :: pre, ds, post, hne, hdig, by simp [hcs], by simp [hl]⟩

lemma getRef_ok {env : Env} {ref : String} (h : getRef env = .ok ref) :
    ∃ r, env "GITHUB_REF" = some r ∧ r ≠ "" ∧ ref = getRefRewrite r := by
  unfold getRef getRequiredEnvParam at h
  cases he : env "GITHUB_REF" with
  | none => rw [he] at h; cases h
  | some r =>
      rw [he] at h
      by_cases hr : r = ""
      · simp [hr, Except.map] at h
      · simp only [hr, if_false, Except.map] at h
        cases h
        exact ⟨r, rfl, hr, rfl⟩

lemma uploadFiles_payload_ref (files : List SarifFile) (c : Collaborators) (env : Env)
    (p : UploadPayloadRec) (h : (uploadFiles files c env).payload = some p) :
    ∃ r, env "GITHUB_REF" = some r ∧ r ≠ "" ∧ p.ref = getRefRewrite r := by
  by_cases hs : truthy (env SENTINEL_VAR) = true
  · simp [uploadFiles, hs] at h
  · have hs' : truthy (env SENTINEL_VAR) = false := by simpa using hs
    simp only [uploadFiles, hs', Bool.false_eq_true, if_false] at h
    have henv : envSet env SENTINEL_VAR SENTINEL_VAR "GITHUB_REF" = env "GITHUB_REF" := by
      simp [envSet, SENTINEL_VAR]
    revert h
    unfold uploadFilesInner
    dsimp only
    repeat' split
    all_goals intro h
    any_goals cases h
    all_goals
      obtain ⟨r, hr, hrne, hrew⟩ := getRef_ok
        (show getRef (envSet env SENTINEL_VAR SENTINEL_VAR) = Except.ok _ by assumption)
      rw [henv] at hr
      exact ⟨r, hr, hrne, hrew⟩

lemma createStatusReportBase_ref (wp mi now an st asa : String) (cause exc : Option String)
    (env : Env) (rep : StatusReport) (env' : Env) (n : Nat)
    (h : createStatusReportBase wp mi now an st asa cause exc env = .ok (rep, env', n)) :
    ∃ r, env "GITHUB_REF" = some r ∧ r ≠ "" ∧ rep.ref = getRefRewrite r := by
  unfold createStatusReportBase at h
  cases href : getRef env with
  | error e => rw [href] at h; cases h
  | ok ref =>
      rw [href] at h
      dsimp only at h
      obtain ⟨r, hr, hrne, hrew⟩ := getRef_ok href
      cases hak : getAnalysisKey wp env with
      | error e => rw [hak] at h; cases h
      | ok trip =>
          obtain ⟨ak, env1, lk⟩ := trip
          rw [hak] at h
          dsimp only at h
          cases hst : env1 WORKFLOW_STARTED_AT_VAR with
          | some t => rw [hst] at h; cases h; exact ⟨r, hr, hrne, hrew⟩
          | none => rw [hst] at h; cases h; exact ⟨r, hr, hrne, hrew⟩

/-- C10 (amended): `getRefRewrite` rewrites every ref exactly of the form
`refs/pull/<N>/merge` to `refs/pull/<N>/head`; in general it replaces the
first substring of that form (leaving refs with no such substring
unchanged — the source regex is unanchored, so refs merely containing the
pattern are rewritten too); and the rewritten ref is the `ref` field of
the assembled `UploadPayload` and of every `StatusReport`. -/
theorem getRef_rewrite_characterization :
    (∀ ds : List Char, ds ≠ [] → (∀ c ∈ ds, isDigitChar c = true) →
      getRefRewrite ⟨"refs/pull/".data ++ ds ++ "/merge".data⟩ =
        ⟨"refs/pull/".data ++ ds ++ "/head".data⟩) ∧
    (∀ s : String, getRefRewrite s = s ∨
      ∃ pre ds post, ds ≠ [] ∧ (∀ c ∈ ds, isDigitChar c = true) ∧
        s.data = pre ++ "refs/pull/".data ++ ds ++ "/merge".data ++ post ∧
        (getRefRewrite s).data = pre ++ "refs/pull/".data ++ ds ++ "/head".data ++ post) ∧
    (∀ (files : List SarifFile) (c : Collaborators) (env : Env) (p : UploadPayloadRec),
      (uploadFiles files c env).payload = some p →
      ∃ r, env "GITHUB_REF" = some r ∧ r ≠ "" ∧ p.ref = getRefRewrite r) ∧
    (∀ (wp mi now an st asa : String) (cause exc : Option String) (env : Env)
      (rep : StatusReport) (env' : Env) (n : Nat),
      createStatusReportBase wp mi now an st asa cause exc env = .ok (rep, env', n) →
      ∃ r, env "GITHUB_REF" = some r ∧ r ≠ "" ∧ rep.ref = getRefRewrite r) := by
  refine ⟨?_, ?_, uploadFiles_payload_ref, createStatusReportBase_ref⟩
  · intro ds hne hdig
    have hL : "refs/pull/".data ++ ds ++ "/merge".data =
        "refs/pull/".data ++ (ds ++ ("/merge".data ++ [])) := by simp
    rw [getRefRewrite]
    rw [show (String.mk ("refs/pull/".data ++ ds ++ "/merge".data)).data =
        "refs/pull/".data ++ ds ++ "/merge".data from rfl]
    rw [hL, replacePullMerge_exact ds hne hdig []]
    exact congrArg String.mk (by simp)
  · intro s
    cases hrep : replacePullMerge s.data with
    | none => exact Or.inl (by rw [getRefRewrite, hrep])
    | some l =>
        right
        obtain ⟨pre, ds, post, hne, hdig, hcs, hl⟩ := replacePullMerge_decomp s.data l hrep
        exact ⟨pre, ds, post, hne, hdig, hcs, by rw [getRefRewrite, hrep]; exact hl⟩

/-- Counterexample to C10 as stated: `"xrefs/pull/4/merge"` is not of the
form `refs/pull/<N>/merge`, yet `getRef` does not return it unchanged —
the unanchored regex matches the embedded substring and rewrites it. -/
theorem getRef_counterexample :
    getRefRewrite "xrefs/pull/4/merge" = "xrefs/pull/4/head" ∧
    "xrefs/pull/4/merge" ≠ "xrefs/pull/4/head" ∧
    ¬ pullMergeForm "xrefs/pull/4/merge" := by
  refine ⟨by decide, by decide, ?_⟩
  rintro ⟨ds, hne, hdig, heq⟩
  have hx : "xrefs/pull/4/merge".data = 'x' :: "refs/pull/4/merge".data := rfl
  have hr : "refs/pull/".data ++ ds ++ "/merge".data =
      'r' :: ("efs/pull/".data ++ ds ++ "/merge".data) := rfl
  rw [hx, hr] at heq
  injection heq with h1 _
  exact absurd h1 (by decide)

/-- Witness for C10 (amended): `refs/pull/123/merge` is rewritten to
`refs/pull/123/head`, and the concrete upload's payload carries the
rewritten `GITHUB_REF`. -/
theorem getRef_rewrite_witness :
    getRefRewrite "refs/pull/123/merge" = "refs/pull/123/head" ∧
    (uploadFiles cxFiles cxCollab cxEnvFull).payload = some cxPayload ∧
    cxPayload.ref = getRefRewrite ((cxEnvFull "GITHUB_REF").getD "") := by
  refine ⟨?_, by decide, ?_⟩
  · have h := (getRef_rewrite_characterization).1 "123".data (by decide) (by decide)
    have e1 : ("refs/pull/123/merge" : String) =
        ⟨"refs/pull/".data ++ "123".data ++ "/merge".data⟩ := by decide
    have e2 : ("refs/pull/123/head" : String) =
        ⟨"refs/pull/".data ++ "123".data ++ "/head".data⟩ := by decide
    rw [e1, e2, h]
  · obtain ⟨r, hr, hrne, hrew⟩ := (getRef_rewrite_characterization).2.2.1 cxFiles cxCollab
      cxEnvFull cxPayload (by decide)
    have hgetd : (cxEnvFull "GITHUB_REF").getD "" = r := by rw [hr]; rfl
    rw [hgetd]
    exact hrew

end Sarif
